import Mathlib

/-!
Shallow embedding of the conversation / streaming-protocol layer of the
llm-router-platform Python client examples, together with proofs of the
specified properties.

The embedded code comes from:
* `examples/python/multi_turn_chat.py` — `ChatSession` (`__init__`, `chat`,
  `clear_history`);
* `examples/python/streaming_chat.py` — `get_or_create_api_key` (cached-key
  probe) and `stream_chat_completion` (the SSE line consumer);
* `examples/python/chat_with_apikey.py` — `find_model_provider` and the
  default provider/model selection in `main`.

Machine-level concerns (HTTP transport, file IO for the key cache) are
represented by explicit parameters: the HTTP response a call receives, the
probe outcome, and the cached-key contents are inputs of the embedded
functions, exactly as the Python control flow consumes them.
-/

namespace LlmRouter

/-! ### Data model (multi_turn_chat.py)

Messages are Python dicts with string fields "role" and "content"; we keep
the role as a raw string, as the source does. -/

structure Message where
  role : String
  content : String
  deriving DecidableEq

/-- The mutable state of `ChatSession` in multi_turn_chat.py:
`self.api_key`, `self.model`, `self.messages`. -/
structure ChatSession where
  api_key : String
  model : String
  messages : List Message
  deriving DecidableEq

/-- The part of a completion choice the code reads: `choice["message"]["content"]`. -/
structure RespMessage where
  content : String
  deriving DecidableEq

structure Choice where
  message : RespMessage
  deriving DecidableEq

/-- The part of a parsed completion response body the code reads: `data["choices"]`. -/
structure CompletionBody where
  choices : List Choice
  deriving DecidableEq

/-- An HTTP response to a buffered completion request: its status code and
its parsed JSON body. -/
structure HttpResponse where
  status : Nat
  body : CompletionBody
  deriving DecidableEq

/-- The Python exceptions the embedded `chat` can raise:
`requests.exceptions.HTTPError` from `raise_for_status()` and `IndexError`
from `data["choices"][0]` on an empty list. -/
inductive PyError where
  | httpError (status : Nat)
  | indexError
  deriving DecidableEq

/-- `ChatSession.__init__` (multi_turn_chat.py lines 52-58): stores the key
and model and, when `system_prompt` is truthy (not None and non-empty),
appends one system message. -/
def ChatSession.init (api_key : String) (model : String)
    (system_prompt : Option String) : ChatSession :=
  { api_key := api_key
    model := model
    messages :=
      match system_prompt with
      | some sp => if sp = "" then [] else [{ role := "system", content := sp }]
      | none => [] }

/-- `ChatSession.chat` (multi_turn_chat.py lines 60-95).  The HTTP response
the POST receives is a parameter.  Control flow of the source: append the
user message; `response.raise_for_status()` raises `HTTPError` on a 4xx/5xx
status; otherwise `data["choices"][0]["message"]["content"]` raises
`IndexError` when `choices` is empty; otherwise the assistant message is
appended and returned. -/
def ChatSession.chat (s : ChatSession) (user_message : String)
    (resp : HttpResponse) : ChatSession × Except PyError String :=
  let s1 : ChatSession :=
    { s with messages := s.messages ++ [{ role := "user", content := user_message }] }
  if 400 ≤ resp.status ∧ resp.status < 600 then
    (s1, Except.error (PyError.httpError resp.status))
  else
    match resp.body.choices with
    | [] => (s1, Except.error PyError.indexError)
    | c :: _ =>
      ({ s1 with
          messages := s1.messages ++ [{ role := "assistant", content := c.message.content }] },
       Except.ok c.message.content)

/-- `ChatSession.clear_history` (multi_turn_chat.py lines 97-100): keep
exactly the messages whose role is "system". -/
def ChatSession.clear_history (s : ChatSession) : ChatSession :=
  { s with messages := s.messages.filter (fun m => m.role == "system") }

/-- Iterate `chat` over a list of calls, each a user message paired with
the HTTP response that call receives; threads the session state exactly as
a sequence of `session.chat(...)` invocations does. -/
def runChats (s : ChatSession) : List (String × HttpResponse) → ChatSession
  | [] => s
  | (u, r) :: rest => runChats (s.chat u r).1 rest

/-- A call is successful when the response is 2xx and has at least one
choice: then `chat` returns normally in the source. -/
def successResp (r : HttpResponse) : Prop :=
  200 ≤ r.status ∧ r.status < 300 ∧ r.body.choices ≠ []

/-- Python truthiness of the `system_prompt` argument (`if system_prompt:`):
true exactly for a supplied, non-empty prompt. -/
def hasSystemPrompt : Option String → Bool
  | some sp => sp ≠ ""
  | none => false

/-! ### Credential probe (streaming_chat.py, get_or_create_api_key)

The function's decision between reusing the cached key and issuing a new
one depends on the cached file contents and the outcome of the probe
request; both are parameters of the embedding. -/

/-- Outcome of the probe POST: either an HTTP response with some status
code, or a transport-level failure (`requests.exceptions.RequestException`). -/
inductive ProbeOutcome where
  | httpStatus (code : Nat)
  | transportError
  deriving DecidableEq

/-- Which key `get_or_create_api_key` ends up returning. -/
inductive KeySource where
  | cached
  | freshlyIssued
  deriving DecidableEq

/-- `get_or_create_api_key` (streaming_chat.py lines 35-82), restricted to
its key-selection decision.  `cached` is the stripped contents of the cache
file (`none` when the file does not exist).  Source control flow: with a
truthy cached key, probe; `if test_response.status_code not in [401, 403]:
return cached_key`; on 401/403 fall through; on `RequestException` the
`except` does `pass` and control falls through; every fall-through path
creates a new API key. -/
def get_or_create_api_key (cached : Option String) (probe : ProbeOutcome) : KeySource :=
  match cached with
  | none => KeySource.freshlyIssued
  | some k =>
    if k = "" then KeySource.freshlyIssued
    else
      match probe with
      | ProbeOutcome.httpStatus code =>
        if code = 401 ∨ code = 403 then KeySource.freshlyIssued else KeySource.cached
      | ProbeOutcome.transportError => KeySource.freshlyIssued

/-! ### Provider catalog (chat_with_apikey.py) -/

/-- A provider descriptor, the fields of the dicts returned by
`GET /api/v1/models/providers` that the code reads: `name`, `is_active`,
`models`. -/
structure Provider where
  name : String
  is_active : Bool
  models : List String
  deriving DecidableEq

/-- Python truthiness of `p.get("is_active") and p.get("models")`. -/
def qualifies (p : Provider) : Bool :=
  p.is_active && !p.models.isEmpty

/-- The default provider/model selection in `main`
(chat_with_apikey.py lines 231-238):
`active = [p for p in providers if p.get("is_active") and p.get("models")]`,
fail when `active` is empty, otherwise `(active[0], active[0]["models"][0])`. -/
def select_default (providers : List Provider) : Option (Provider × String) :=
  match providers.filter qualifies with
  | [] => none
  | p :: _ => some (p, p.models.headD "")

/-- `find_model_provider` (chat_with_apikey.py lines 151-156): linear scan,
return the first provider whose `models` list contains the name, else None. -/
def find_model_provider : List Provider → String → Option String
  | [], _ => none
  | p :: rest, n =>
    if p.models.contains n then some p.name else find_model_provider rest n

/-! ### Stream consumer (streaming_chat.py, stream_chat_completion)

The loop body over `response.iter_lines()` is embedded as a per-line step
function and a fold over the list of received lines.  `json.loads` is
modelled by a JSON parser over the payload's characters: a value tree with
number lexemes kept as raw strings (the code never inspects numbers), the
standard escape forms, whitespace between tokens, Python's `NaN` and
`Infinity` extensions, last-occurrence-wins duplicate object keys, and the
whole-input requirement, so that parse success and failure line up with
`json.JSONDecodeError`. -/

/-- A parsed JSON value.  Number lexemes are kept verbatim. -/
inductive Json where
  | null
  | bool (b : Bool)
  | num (lexeme : String)
  | str (s : String)
  | arr (elems : List Json)
  | obj (fields : List (String × Json))

def quoteChar : Char := Char.ofNat 34

def lbraceChar : Char := Char.ofNat 123

def rbraceChar : Char := Char.ofNat 125

/-- Skip JSON inter-token whitespace. -/
def skipWs : List Char → List Char
  | [] => []
  | c :: rest =>
    if c = ' ' ∨ c = '\t' ∨ c = '\n' ∨ c = '\r' then skipWs rest else c :: rest

def isDigitCh (c : Char) : Bool := '0' ≤ c && c ≤ '9'

def hexVal (c : Char) : Option Nat :=
  if '0' ≤ c ∧ c ≤ '9' then some (c.toNat - 48)
  else if 'a' ≤ c ∧ c ≤ 'f' then some (c.toNat - 87)
  else if 'A' ≤ c ∧ c ≤ 'F' then some (c.toNat - 55)
  else none

/-- Strip an exact expected character sequence, or fail. -/
def stripExact : List Char → List Char → Option (List Char)
  | [], cs => some cs
  | _ :: _, [] => none
  | l :: ls, c :: cs => if c = l then stripExact ls cs else none

/-- Parse the body of a JSON string (after the opening quote), with the
standard escapes; control characters below 0x20 are rejected as in
Python's strict mode.  Fuel-driven so the definition is structural. -/
def parseStrChars : Nat → List Char → List Char → Option (String × List Char)
  | 0, _, _ => none
  | _ + 1, [], _ => none
  | fuel + 1, c :: rest, acc =>
    if c = quoteChar then some (String.mk acc.reverse, rest)
    else if c = '\\' then
      match rest with
      | [] => none
      | e :: rest2 =>
        if e = quoteChar then parseStrChars fuel rest2 (quoteChar :: acc)
        else if e = '\\' then parseStrChars fuel rest2 ('\\' :: acc)
        else if e = '/' then parseStrChars fuel rest2 ('/' :: acc)
        else if e = 'b' then parseStrChars fuel rest2 (Char.ofNat 8 :: acc)
        else if e = 'f' then parseStrChars fuel rest2 (Char.ofNat 12 :: acc)
        else if e = 'n' then parseStrChars fuel rest2 (Char.ofNat 10 :: acc)
        else if e = 'r' then parseStrChars fuel rest2 (Char.ofNat 13 :: acc)
        else if e = 't' then parseStrChars fuel rest2 (Char.ofNat 9 :: acc)
        else if e = 'u' then
          match rest2 with
          | h1 :: h2 :: h3 :: h4 :: rest3 =>
            match hexVal h1, hexVal h2, hexVal h3, hexVal h4 with
            | some a, some b, some c2, some d =>
              parseStrChars fuel rest3 (Char.ofNat (((a * 16 + b) * 16 + c2) * 16 + d) :: acc)
            | _, _, _, _ => none
          | _ => none
        else none
    else if c.toNat < 32 then none
    else parseStrChars fuel rest (c :: acc)

/-- Parse the fractional part of a number, if present. -/
def parseFrac (cs : List Char) : Option (List Char × List Char) :=
  match cs with
  | c :: rest =>
    if c = '.' then
      let sp := rest.span isDigitCh
      if sp.1.isEmpty then none else some ('.' :: sp.1, sp.2)
    else some ([], cs)
  | [] => some ([], cs)

/-- Parse the exponent part of a number, if present. -/
def parseExp (cs : List Char) : Option (List Char × List Char) :=
  match cs with
  | c :: rest =>
    if c = 'e' ∨ c = 'E' then
      let signAndRest : List Char × List Char :=
        match rest with
        | s :: r2 => if s = '+' ∨ s = '-' then ([s], r2) else ([], rest)
        | [] => ([], rest)
      let sp := signAndRest.2.span isDigitCh
      if sp.1.isEmpty then none else some (c :: (signAndRest.1 ++ sp.1), sp.2)
    else some ([], cs)
  | [] => some ([], cs)

/-- Parse a JSON number lexeme (including Python's `NaN`, `Infinity` and
`-Infinity` extensions); returns the lexeme and the remaining input. -/
def parseNumber (cs : List Char) : Option (String × List Char) :=
  match stripExact "Infinity".data cs with
  | some rest => some ("Infinity", rest)
  | none =>
  match stripExact "NaN".data cs with
  | some rest => some ("NaN", rest)
  | none =>
    let negAndRest : Bool × List Char :=
      match cs with
      | c :: rest => if c = '-' then (true, rest) else (false, cs)
      | [] => (false, cs)
    if negAndRest.1 then
      match stripExact "Infinity".data negAndRest.2 with
      | some rest => some ("-Infinity", rest)
      | none => parseNumberBody true negAndRest.2
    else parseNumberBody false negAndRest.2
where
  parseNumberBody (neg : Bool) (cs1 : List Char) : Option (String × List Char) :=
    match cs1 with
    | [] => none
    | c :: rest =>
      if isDigitCh c then
        let intAndRest : List Char × List Char :=
          if c = '0' then ([c], rest)
          else
            let sp := rest.span isDigitCh
            (c :: sp.1, sp.2)
        match parseFrac intAndRest.2 with
        | none => none
        | some (fracChars, afterFrac) =>
          match parseExp afterFrac with
          | none => none
          | some (expChars, afterExp) =>
            some (String.mk ((if neg then ['-'] else []) ++ intAndRest.1 ++ fracChars ++ expChars),
                  afterExp)
      else none

/-- Insert a key into an object's field list, Python-dict style: a
duplicate key keeps its original position and takes the new value. -/
def insertField (fields : List (String × Json)) (k : String) (v : Json) :
    List (String × Json) :=
  match fields with
  | [] => [(k, v)]
  | (k2, v2) :: rest =>
    if k2 = k then (k2, v) :: rest else (k2, v2) :: insertField rest k v

/-- What the recursive-descent parser is currently parsing. -/
inductive PMode where
  | value
  | arrItems (acc : List Json)
  | objItems (acc : List (String × Json))

/-- The recursive-descent JSON parser, fuel-driven so that it is a
structural recursion on `Nat` and evaluates inside the kernel. -/
def parseCore : Nat → PMode → List Char → Option (Json × List Char)
  | 0, _, _ => none
  | fuel + 1, PMode.value, cs =>
    match skipWs cs with
    | [] => none
    | c :: rest =>
      if c = 'n' then
        match stripExact "null".data (c :: rest) with
        | some r2 => some (Json.null, r2)
        | none => none
      else if c = 't' then
        match stripExact "true".data (c :: rest) with
        | some r2 => some (Json.bool true, r2)
        | none => none
      else if c = 'f' then
        match stripExact "false".data (c :: rest) with
        | some r2 => some (Json.bool false, r2)
        | none => none
      else if c = quoteChar then
        match parseStrChars (rest.length + 1) rest [] with
        | some (s, r2) => some (Json.str s, r2)
        | none => none
      else if c = '[' then
        match skipWs rest with
        | c2 :: r2 => if c2 = ']' then some (Json.arr [], r2) else parseCore fuel (PMode.arrItems []) rest
        | [] => none
      else if c = lbraceChar then
        match skipWs rest with
        | c2 :: r2 => if c2 = rbraceChar then some (Json.obj [], r2) else parseCore fuel (PMode.objItems []) rest
        | [] => none
      else if c = '-' ∨ isDigitCh c ∨ c = 'I' ∨ c = 'N' then
        match parseNumber (c :: rest) with
        | some (lx, r2) => some (Json.num lx, r2)
        | none => none
      else none
  | fuel + 1, PMode.arrItems acc, cs =>
    match parseCore fuel PMode.value cs with
    | none => none
    | some (v, rest) =>
      match skipWs rest with
      | c :: r2 =>
        if c = ',' then parseCore fuel (PMode.arrItems (acc ++ [v])) r2
        else if c = ']' then some (Json.arr (acc ++ [v]), r2)
        else none
      | [] => none
  | fuel + 1, PMode.objItems acc, cs =>
    match skipWs cs with
    | c :: rest =>
      if c = quoteChar then
        match parseStrChars (rest.length + 1) rest [] with
        | some (k, r1) =>
          match skipWs r1 with
          | c2 :: r2 =>
            if c2 = ':' then
              match parseCore fuel PMode.value r2 with
              | some (v, r3) =>
                match skipWs r3 with
                | c3 :: r4 =>
                  if c3 = ',' then parseCore fuel (PMode.objItems (insertField acc k v)) r4
                  else if c3 = rbraceChar then some (Json.obj (insertField acc k v), r4)
                  else none
                | [] => none
              | none => none
            else none
          | [] => none
        | none => none
      else none
    | [] => none

/-- Model of Python's `json.loads` on the payload characters: parse one
value and require only whitespace to remain. -/
def json_loads (cs : List Char) : Option Json :=
  match parseCore (2 * cs.length + 2) PMode.value cs with
  | some (v, rest) => if skipWs rest = [] then some v else none
  | none => none

/-- First-match lookup in an object's fields (the parser already collapsed
duplicate keys, so this is Python dict indexing). -/
def lookupField (k : String) : List (String × Json) → Option Json
  | [] => none
  | (k2, v) :: rest => if k2 = k then some v else lookupField k rest

/-- Substring test on character lists, for Python's `"choices" in chunk`
when the chunk is a string. -/
def subOccurs (needle : List Char) : List Char → Bool
  | [] => needle.isEmpty
  | c :: rest => needle.isPrefixOf (c :: rest) || subOccurs needle rest

/-- Python truthiness of a JSON number lexeme: zero iff its mantissa has no
non-zero digit (`NaN` and the infinities are truthy). -/
def numTruthy (lx : String) : Bool :=
  (lx.data.takeWhile (fun c => !(c == 'e') && !(c == 'E'))).any
    (fun c => (('1' ≤ c && c ≤ '9') : Bool) || c == 'N' || c == 'I')

/-- Python truthiness of a parsed JSON value (`if content:`). -/
def truthy : Json → Bool
  | Json.null => false
  | Json.bool b => b
  | Json.str s => !s.isEmpty
  | Json.arr l => !l.isEmpty
  | Json.obj f => !f.isEmpty
  | Json.num lx => numTruthy lx

/-- What one data frame contributes to the stream. -/
inductive FrameStep where
  | skip
  | emit (content : Json)
  | done
  | err

/-- The body of the `try` block applied to one parsed chunk
(streaming_chat.py lines 123-127):
`if "choices" in chunk and len(chunk["choices"]) > 0:` then
`delta = chunk["choices"][0].get("delta", {})`,
`content = delta.get("content", "")`, `if content: yield content`.
Paths on which the Python expressions raise an uncaught exception
(`TypeError` from `in` or `len`, `AttributeError` from `.get` on a
non-dict, `KeyError` from indexing a dict with 0) are `err`. -/
def processChunk (chunk : Json) : FrameStep :=
  match chunk with
  | Json.obj fields =>
    match lookupField "choices" fields with
    | none => FrameStep.skip
    | some choicesVal =>
      match choicesVal with
      | Json.arr elems =>
        match elems with
        | [] => FrameStep.skip
        | e0 :: _ =>
          match e0 with
          | Json.obj f0 =>
            match (lookupField "delta" f0).getD (Json.obj []) with
            | Json.obj df =>
              let content := (lookupField "content" df).getD (Json.str "")
              if truthy content then FrameStep.emit content else FrameStep.skip
            | _ => FrameStep.err
          | _ => FrameStep.err
      | Json.str s => if s.isEmpty then FrameStep.skip else FrameStep.err
      | Json.obj f2 => if f2.isEmpty then FrameStep.skip else FrameStep.err
      | _ => FrameStep.err
  | Json.arr elems =>
    if elems.any (fun e => match e with | Json.str s => s == "choices" | _ => false) then
      FrameStep.err
    else FrameStep.skip
  | Json.str s => if subOccurs "choices".data s.data then FrameStep.err else FrameStep.skip
  | _ => FrameStep.err

def dataMarkerChars : List Char := "data: ".data

/-- One iteration of the line loop (streaming_chat.py lines 114-129):
skip falsy lines, require the data marker, stop on the termination
sentinel, skip frames whose payload fails to parse
(`json.JSONDecodeError`), otherwise process the chunk. -/
def processLine (line : String) : FrameStep :=
  let cs := line.data
  if cs = [] then FrameStep.skip
  else if dataMarkerChars.isPrefixOf cs then
    let payload := cs.drop 6
    if payload = "[DONE]".data then FrameStep.done
    else
      match json_loads payload with
      | none => FrameStep.skip
      | some chunk => processChunk chunk
  else FrameStep.skip

/-- How the stream ended: normally (sentinel or transport exhaustion, both
normal in the source) or by an uncaught exception. -/
inductive StreamEnd where
  | normal
  | errored
  deriving DecidableEq

/-- `stream_chat_completion` (streaming_chat.py lines 113-132) as a fold
over the received lines: the list of yielded contents plus how the
generator ended.  An empty remainder is a normal end (the source treats
`ChunkedEncodingError` and exhaustion as normal). -/
def stream_chat_completion : List String → List Json × StreamEnd
  | [] => ([], StreamEnd.normal)
  | line :: rest =>
    match processLine line with
    | FrameStep.skip => stream_chat_completion rest
    | FrameStep.emit c =>
      let r := stream_chat_completion rest
      (c :: r.1, r.2)
    | FrameStep.done => ([], StreamEnd.normal)
    | FrameStep.err => ([], StreamEnd.errored)

/-! ### Concrete fixtures used by witnesses and counterexamples -/

def demoSession : ChatSession := { api_key := "key", model := "llama2", messages := [] }

def demoSession2 : ChatSession :=
  { api_key := "k", model := "m",
    messages := [{ role := "user", content := "u1" }, { role := "system", content := "late" }] }

def demoResp : HttpResponse :=
  { status := 200, body := { choices := [{ message := { content := "yo" } }] } }

def provInactive : Provider := { name := "first", is_active := false, models := ["x"] }

def provActive : Provider := { name := "second", is_active := true, models := ["a", "b"] }

def provA : Provider := { name := "A", is_active := true, models := ["m"] }

def provB : Provider := { name := "B", is_active := true, models := ["m"] }

/-- The valid stream frame of the specification's example:
`data: {"choices":[{"delta":{"content":"Hi"}}]}` (braces escaped). -/
def hiFrame : String := "data: \x7b\"choices\":[\x7b\"delta\":\x7b\"content\":\"Hi\"\x7d\x7d]\x7d"

/-- A data frame whose payload `{bad` is not valid JSON. -/
def badFrame : String := "data: \x7bbad"

/-! ### Helper lemmas about `chat` and `runChats` -/

/-- A successful call appends exactly two messages. -/
theorem chat_success_length (s : ChatSession) (u : String) (r : HttpResponse)
    (h : successResp r) :
    (s.chat u r).1.messages.length = s.messages.length + 2 := by
  obtain ⟨h1, h2, h3⟩ := h
  have hcond : ¬ (400 ≤ r.status ∧ r.status < 600) := by omega
  match hc : r.body.choices with
  | [] => exact absurd hc h3
  | c :: cs =>
    simp [ChatSession.chat, hcond, hc]

theorem runChats_length :
    ∀ (calls : List (String × HttpResponse)) (s : ChatSession),
      (∀ p ∈ calls, successResp p.2) →
      (runChats s calls).messages.length = s.messages.length + 2 * calls.length := by
  intro calls
  induction calls with
  | nil => intro s _; simp [runChats]
  | cons p rest ih =>
    intro s h
    obtain ⟨u, r⟩ := p
    have hr : successResp r := h (u, r) (by simp)
    have hrest : ∀ q ∈ rest, successResp q.2 := fun q hq => h q (by simp [hq])
    simp only [runChats]
    rw [ih _ hrest, chat_success_length s u r hr]
    simp [List.length_cons]
    ring

theorem init_length (key model : String) (sp : Option String) :
    (ChatSession.init key model sp).messages.length
      = if hasSystemPrompt sp then 1 else 0 := by
  cases sp with
  | none => simp [ChatSession.init, hasSystemPrompt]
  | some v =>
    by_cases hv : v = "" <;> simp [ChatSession.init, hasSystemPrompt, hv]

/-! ### Claim theorems -/

/-- C1 (code_bug evaluation): at the failing input — a non-empty cached key
whose probe raises a transport-level failure — `get_or_create_api_key`
falls through and issues a fresh key instead of reusing the cached one,
although its own comment says the key might still be valid. -/
theorem get_or_create_api_key_transport_reissues :
    get_or_create_api_key (some "llm_cached_key") ProbeOutcome.transportError
      = KeySource.freshlyIssued := rfl

/-- C2 (code_bug evaluation): on a 2xx response whose `choices` array is
empty, `chat` raises the index fault from `data["choices"][0]` rather than
a `MalformedResponseError`. -/
theorem chat_empty_choices_index_fault :
    (demoSession.chat "hello" { status := 200, body := { choices := [] } }).2
      = Except.error PyError.indexError := rfl

/-- C3: for every sequence of successful `chat` calls starting from a fresh
session, the history length is `2 * n` plus one when a (truthy) system
prompt was supplied at construction. -/
theorem chat_history_length (key model : String) (sp : Option String)
    (calls : List (String × HttpResponse))
    (h : ∀ p ∈ calls, successResp p.2) :
    (runChats (ChatSession.init key model sp) calls).messages.length
      = 2 * calls.length + (if hasSystemPrompt sp then 1 else 0) := by
  rw [runChats_length calls _ h, init_length]
  omega

theorem chat_history_length_witness :
    (runChats (ChatSession.init "k" "m" (some "S")) [("hi", demoResp)]).messages.length
      = 2 * [("hi", demoResp)].length + (if hasSystemPrompt (some "S") then 1 else 0) :=
  chat_history_length "k" "m" (some "S") [("hi", demoResp)] (by
    intro p hp
    simp only [List.mem_singleton] at hp
    subst hp
    exact ⟨by decide, by decide, by simp [demoResp]⟩)

/-- C4: a non-2xx (4xx/5xx) response makes `chat` fail with the HTTP error,
and after any failing `chat` call the history is exactly the prior history
with the user turn appended (no rollback, no assistant turn), while the
credential and model fields are unchanged. -/
theorem chat_failure_state (s : ChatSession) (u : String) (r : HttpResponse) :
    (400 ≤ r.status ∧ r.status < 600 →
      (s.chat u r).2 = Except.error (PyError.httpError r.status)) ∧
    (∀ e : PyError, (s.chat u r).2 = Except.error e →
      (s.chat u r).1.messages = s.messages ++ [{ role := "user", content := u }] ∧
      (s.chat u r).1.api_key = s.api_key ∧
      (s.chat u r).1.model = s.model) := by
  constructor
  · intro hc
    simp [ChatSession.chat, hc]
  · intro e he
    by_cases hc : 400 ≤ r.status ∧ r.status < 600
    · simp [ChatSession.chat, hc]
    · match hch : r.body.choices with
      | [] => simp [ChatSession.chat, hc, hch]
      | c :: cs =>
        exfalso
        simp [ChatSession.chat, hc, hch] at he

theorem chat_failure_state_witness :
    (demoSession.chat "hi" { status := 500, body := { choices := [] } }).2
      = Except.error (PyError.httpError 500) ∧
    (demoSession.chat "hi" { status := 500, body := { choices := [] } }).1.messages
      = demoSession.messages ++ [{ role := "user", content := "hi" }] :=
  ⟨(chat_failure_state demoSession "hi" _).1 (by decide),
   ((chat_failure_state demoSession "hi" _).2 (PyError.httpError 500)
      ((chat_failure_state demoSession "hi" _).1 (by decide))).1⟩

/-- C7: construct a session with system prompt "S", perform one successful
`chat` (any user message, any 2xx response with at least one choice), then
`clear_history`: the history is exactly the single system message "S". -/
theorem clear_history_round_trip (k m u reply : String) (cs : List Choice) (st : Nat)
    (h : 200 ≤ st ∧ st < 300) :
    (((ChatSession.init k m (some "S")).chat u
        { status := st, body := { choices := { message := { content := reply } } :: cs } }).1.clear_history).messages
      = [{ role := "system", content := "S" }] := by
  have hcond : ¬ (400 ≤ st ∧ st < 600) := by omega
  simp [ChatSession.init, ChatSession.chat, ChatSession.clear_history, hcond]

theorem clear_history_round_trip_witness :
    (((ChatSession.init "k" "m" (some "S")).chat "hi"
        { status := 200, body := { choices := [{ message := { content := "yo" } }] } }).1.clear_history).messages
      = [{ role := "system", content := "S" }] :=
  clear_history_round_trip "k" "m" "hi" "yo" [] 200 (by decide)

/-- C8: `select_default` returns the first provider that is active with a
non-empty model list (the `List.find?` of the qualifying predicate), paired
with its first model; on the two-provider example it returns the second
provider with model "a"; and it returns `none` when no provider qualifies. -/
theorem select_default_spec :
    (∀ ps : List Provider,
        select_default ps
          = (ps.find? qualifies).map (fun p => (p, p.models.headD ""))) ∧
    select_default [provInactive, provActive] = some (provActive, "a") ∧
    (∀ ps : List Provider, (∀ p ∈ ps, qualifies p = false) →
        select_default ps = none) := by
  have hmain : ∀ ps : List Provider,
      select_default ps
        = (ps.find? qualifies).map (fun p => (p, p.models.headD "")) := by
    intro ps
    induction ps with
    | nil => rfl
    | cons p rest ih =>
      by_cases hq : qualifies p = true
      · simp [select_default, List.filter_cons, hq, List.find?_cons_of_pos _ hq]
      · rw [List.find?_cons_of_neg _ (by simpa using hq)]
        simpa [select_default, List.filter_cons, hq] using ih
  refine ⟨hmain, rfl, ?_⟩
  intro ps hall
  rw [hmain ps, List.find?_eq_none.mpr (fun p hp => by simp [hall p hp]), Option.map_none']

theorem select_default_spec_witness :
    select_default [provInactive] = none ∧
    select_default [provInactive, provActive] = some (provActive, "a") :=
  ⟨select_default_spec.2.2 [provInactive] (by
      intro p hp
      simp only [List.mem_singleton] at hp
      subst hp
      rfl),
   select_default_spec.2.1⟩

/-- C9: `find_model_provider` is a first-match linear scan: when every
provider before `p` does not list the model and `p` lists it, the result is
`p`'s name (so with two providers both listing "m" the first in fetch order
wins, deterministically since the function is pure); when no provider lists
the name the result is `none`. -/
theorem find_model_provider_first_match :
    (∀ (pre post : List Provider) (p : Provider) (n : String),
        (∀ q ∈ pre, q.models.contains n = false) →
        p.models.contains n = true →
        find_model_provider (pre ++ p :: post) n = some p.name) ∧
    (∀ (ps : List Provider) (n : String),
        (∀ q ∈ ps, q.models.contains n = false) →
        find_model_provider ps n = none) := by
  constructor
  · intro pre
    induction pre with
    | nil =>
      intro post p n _ hp
      have hmem : n ∈ p.models := by simpa using hp
      simp [find_model_provider, hmem]
    | cons q pre ih =>
      intro post p n hpre hp
      have hq : q.models.contains n = false := hpre q (by simp)
      have hrest : ∀ x ∈ pre, x.models.contains n = false :=
        fun x hx => hpre x (by simp [hx])
      simp only [List.cons_append, find_model_provider, hq]
      simp only [Bool.false_eq_true, if_false]
      exact ih post p n hrest hp
  · intro ps
    induction ps with
    | nil => intro n _; rfl
    | cons q ps ih =>
      intro n hall
      have hq : q.models.contains n = false := hall q (by simp)
      have hrest : ∀ x ∈ ps, x.models.contains n = false :=
        fun x hx => hall x (by simp [hx])
      simp only [find_model_provider, hq]
      simp only [Bool.false_eq_true, if_false]
      exact ih n hrest

theorem find_model_provider_first_match_witness :
    find_model_provider [provA, provB] "m" = some "A" ∧
    find_model_provider [] "m" = none :=
  ⟨find_model_provider_first_match.1 [] [provB] provA "m" (by simp) (by decide),
   find_model_provider_first_match.2 [] "m" (by simp)⟩

/-- C10: `clear_history` retains exactly the messages whose role is
"system", in their original order (the retained history is a sublist of
the old one) and regardless of position, and it is idempotent. -/
theorem clear_history_keeps_system (s : ChatSession) :
    (s.clear_history.messages.Sublist s.messages) ∧
    (∀ m : Message, m ∈ s.clear_history.messages ↔ m ∈ s.messages ∧ m.role = "system") ∧
    s.clear_history.clear_history = s.clear_history := by
  refine ⟨List.filter_sublist _, ?_, ?_⟩
  · intro m
    simp [ChatSession.clear_history, List.mem_filter]
  · cases s with
    | mk k md msgs =>
      simp only [ChatSession.clear_history, ChatSession.mk.injEq, true_and]
      rw [List.filter_filter]
      simp

theorem clear_history_keeps_system_witness :
    demoSession2.clear_history.clear_history = demoSession2.clear_history :=
  (clear_history_keeps_system demoSession2).2.2

/-! ### Stream consumer theorems -/

/-- C5: on the two-line input of the specification's example the stream
consumer yields exactly the single fragment "Hi" and ends normally, the
sentinel closing the sequence without yielding anything. -/
theorem stream_two_line_hi :
    stream_chat_completion [hiFrame, "data: [DONE]"]
      = ([Json.str "Hi"], StreamEnd.normal) := rfl

/-- A line that the per-line step skips can be removed from anywhere in the
input without changing the stream's output. -/
theorem stream_skip_middle (mf : String) (hskip : processLine mf = FrameStep.skip)
    (pre rest : List String) :
    stream_chat_completion (pre ++ mf :: rest) = stream_chat_completion (pre ++ rest) := by
  induction pre with
  | nil => simp [stream_chat_completion, hskip]
  | cons l pre ih =>
    simp only [List.cons_append, stream_chat_completion]
    cases h : processLine l <;> simp [ih]

/-- If no earlier line stops or aborts the loop, the fragment of a yielding
line appears in the output. -/
theorem stream_reaches (c : Json) :
    ∀ (pre : List String) (v : String) (rest : List String),
      (∀ l ∈ pre, processLine l ≠ FrameStep.done ∧ processLine l ≠ FrameStep.err) →
      processLine v = FrameStep.emit c →
      c ∈ (stream_chat_completion (pre ++ v :: rest)).1 := by
  intro pre
  induction pre with
  | nil =>
    intro v rest _ hv
    simp [stream_chat_completion, hv]
  | cons l pre ih =>
    intro v rest hpre hv
    have hl := hpre l (by simp)
    have hrest : ∀ x ∈ pre, processLine x ≠ FrameStep.done ∧ processLine x ≠ FrameStep.err :=
      fun x hx => hpre x (by simp [hx])
    simp only [List.cons_append, stream_chat_completion]
    cases h : processLine l with
    | skip => exact ih v rest hrest hv
    | emit d => exact List.mem_cons_of_mem d (ih v rest hrest hv)
    | done => exact absurd h hl.1
    | err => exact absurd h hl.2

/-- A data frame whose payload is not the sentinel and fails to parse is
skipped by the per-line step. -/
theorem processLine_skip_of_parse_failure (mf : String)
    (h1 : dataMarkerChars.isPrefixOf mf.data = true)
    (h2 : mf.data.drop 6 ≠ "[DONE]".data)
    (h3 : json_loads (mf.data.drop 6) = none) :
    processLine mf = FrameStep.skip := by
  have hne : ¬ mf.data = [] := by
    intro h
    rw [h] at h1
    simp [dataMarkerChars, List.isPrefixOf] at h1
  simp [processLine, hne, h1, h2, h3]

/-- C6: a data frame whose payload fails to parse as JSON is skipped
without aborting: removing it leaves the stream's entire output unchanged
(so a parse failure never ends the stream nor surfaces an error), and a
following valid frame's fragment is still yielded provided no earlier line
already ended the stream. -/
theorem stream_skips_malformed_frame (pre rest : List String) (mf v : String) (c : Json)
    (h1 : dataMarkerChars.isPrefixOf mf.data = true)
    (h2 : mf.data.drop 6 ≠ "[DONE]".data)
    (h3 : json_loads (mf.data.drop 6) = none)
    (hv : processLine v = FrameStep.emit c)
    (hpre : ∀ l ∈ pre, processLine l ≠ FrameStep.done ∧ processLine l ≠ FrameStep.err) :
    stream_chat_completion (pre ++ mf :: v :: rest)
        = stream_chat_completion (pre ++ v :: rest) ∧
      c ∈ (stream_chat_completion (pre ++ mf :: v :: rest)).1 := by
  have hskip := processLine_skip_of_parse_failure mf h1 h2 h3
  have he := stream_skip_middle mf hskip pre (v :: rest)
  exact ⟨he, he ▸ stream_reaches c pre v rest hpre hv⟩

theorem stream_skips_malformed_frame_witness :
    stream_chat_completion [badFrame, hiFrame] = stream_chat_completion [hiFrame] ∧
    Json.str "Hi" ∈ (stream_chat_completion [badFrame, hiFrame]).1 :=
  stream_skips_malformed_frame [] [] badFrame hiFrame (Json.str "Hi")
    (by rfl) (by decide) (by rfl) (by rfl) (by simp)

end LlmRouter
